import Mathlib

/-
Verification of the companies CRUD API
(src/backend/app/apis/companies_api/__init__.py).

The module is a FastAPI router over a single PostgreSQL table named
companies.  This file gives a shallow embedding of its pure helpers
(snake_to_camel, row_to_camel_dict, camel_to_snake_dict), of the
allow-list filters and dynamic query builders used by create_company and
update_company, and of the five request handlers together with the
get_db_cursor connection wrapper, and proves or refutes the frozen
claims about them.

Modelling conventions:
- Python dict values are modelled by the inductive type Value; unique
  identifiers (uuid.UUID) and timestamps (datetime) are modelled
  abstractly by Nat payloads, since no claim depends on their string
  format, only on whether a value is one of those or is None.
- A Python dict is modelled as an association list (Dict) with CPython
  semantics: assignment to an existing key replaces the first (and, for
  a real dict, only) occurrence in place, assignment to a fresh key
  appends at the end; iteration order is list order.
- The database is a list of rows (DB); each row is a Dict from column
  name to value.  Executing a handler threads the committed state
  explicitly.  get_db_cursor is modelled by withDbCursor: the body runs
  on a transaction copy of the committed state; on normal exit with
  commit=True the transaction state is committed, on any exception the
  transaction is discarded (psycopg2 closes the connection without
  commit, which rolls back) and, exactly as in the source, the except
  Exception clause of get_db_cursor replaces whatever was raised -
  including HTTPException(404) raised by the handler body - with
  HTTPException(500, Database operation failed.).
- Nested handler calls (create_company and update_company both call
  get_company inside their own cursor block) open a fresh connection
  via a fresh get_db_cursor; at the default READ COMMITTED isolation of
  PostgreSQL/psycopg2 that connection sees only the committed state,
  which is modelled by passing the committed db, not the transaction
  state, to the nested call.
-/

/-- Model of a Python/JSON value stored in a request dict or a table row.
vUuid models uuid.UUID objects, vDt models datetime/date objects (their
payloads are abstract); vNull models Python None / SQL NULL. -/
inductive Value where
  | vStr : String → Value
  | vInt : Int → Value
  | vUuid : Nat → Value
  | vDt : Nat → Value
  | vNull : Value
deriving DecidableEq

/-- A Python dict, as an insertion-ordered association list. -/
abbrev Dict := List (String × Value)

/-- The companies table: a list of rows, each a column-to-value dict. -/
abbrev DB := List Dict

/-- Keys of a dict, in iteration order. -/
def dictKeys (d : Dict) : List String :=
  d.map (fun kv => kv.1)

/-- Dict indexing: value of the first (for a real dict, only) entry with
the given key. -/
def dictLookup : Dict → String → Option Value
  | [], _ => none
  | kv :: d, k => if kv.1 = k then some kv.2 else dictLookup d k

/-- CPython dict assignment d[k] = v: replace the first occurrence of the
key in place, or append the new pair at the end. -/
def dictInsert : Dict → String → Value → Dict
  | [], k, v => [(k, v)]
  | kv :: d, k, v => if kv.1 = k then (k, v) :: d else kv :: dictInsert d k v

/-- True on Python None (SQL NULL). -/
def valueIsNull : Value → Bool
  | Value.vNull => true
  | _ => false

/-- snake_to_camel, character level.  The source applies the regex
substitution sub(r. _([a-z0-9]) ., upper of group 1): each underscore
immediately followed by an ASCII lowercase letter or digit is dropped and
that character uppercased; scanning is left to right and non-overlapping,
any other underscore is kept. -/
def snakeToCamelChars : List Char → List Char
  | [] => []
  | '_' :: c :: rest =>
      if c.isLower || c.isDigit then c.toUpper :: snakeToCamelChars rest
      else '_' :: snakeToCamelChars (c :: rest)
  | c :: rest => c :: snakeToCamelChars rest

/-- snake_to_camel on strings.  The isinstance guard of the source is
outside the modelled domain because keys are always strings here. -/
def snakeToCamel (s : String) : String :=
  String.mk (snakeToCamelChars s.data)

/-- The key conversion of camel_to_snake_dict, character level: the regex
sub(r. (?<!caret)(?=[A-Z]) ., underscore) inserts an underscore before
every ASCII uppercase letter not at position 0, and then the whole string
is lowercased (ASCII model of str.lower). The Bool flag is true at the
start of the string only. -/
def camelToSnakeChars : Bool → List Char → List Char
  | _, [] => []
  | first, c :: rest =>
      if c.isUpper && !first then '_' :: c.toLower :: camelToSnakeChars false rest
      else c.toLower :: camelToSnakeChars false rest

/-- Per-key conversion of camel_to_snake_dict: generic camelCase to
snake_case, except that the keys location and employees are mapped to the
irregular column names address and employee_estimate (the source computes
the generic form first and then overwrites it for those two keys). -/
def camelToSnakeKey (k : String) : String :=
  let generic := String.mk (camelToSnakeChars true k.data)
  if k = ("location") then ("address")
  else if k = ("employees") then ("employee_estimate")
  else generic

/-- Value conversion of row_to_camel_dict: uuid.UUID values are replaced
by str(v) and datetime/date values by v.isoformat(); all other values
pass through.  The exact text of the two string forms is irrelevant to
every claim, so they are modelled by tagged decimal strings. -/
def externalizeValue : Value → Value
  | Value.vUuid u => Value.vStr (String.append ("uuid-") (toString u))
  | Value.vDt t => Value.vStr (String.append ("iso-") (toString t))
  | v => v

/-- The common shape of row_to_camel_dict and camel_to_snake_dict: iterate
over the input dict in order, inserting the converted pair g kv into a
fresh dict. -/
def dictMapInsert (g : String × Value → String × Value) (d : Dict) : Dict :=
  d.foldl (fun acc kv => dictInsert acc (g kv).1 (g kv).2) []

/-- Entry conversion of row_to_camel_dict: camel-case the key, stringify
uuid and datetime values. -/
def camelPair (kv : String × Value) : String × Value :=
  (snakeToCamel kv.1, externalizeValue kv.2)

/-- row_to_camel_dict on a row dict.  The `if row is None: return None`
guard of the source is outside the modelled domain (rows here are always
dicts). -/
def rowToCamelDict (row : Dict) : Dict :=
  dictMapInsert camelPair row

/-- Entry conversion of camel_to_snake_dict: convert the key (with the
location and employees special cases), keep the value. -/
def snakePair (kv : String × Value) : String × Value :=
  (camelToSnakeKey kv.1, kv.2)

/-- camel_to_snake_dict on a request dict.  The None guard of the source
is outside the modelled domain. -/
def camelToSnakeDict (d : Dict) : Dict :=
  dictMapInsert snakePair d

/-- The allowed_columns list of create_company, verbatim. -/
def allowedColumns : List String :=
  ["id", "name", "logo_url", "city", "foundation_date", "domain", "employee_range",
   "categories", "industry", "address", "contact_email", "revenue", "active",
   "catchall_email_domain", "cleaned_phone_number", "additional_industries",
   "alexa_rank", "angel_list_profile_url", "blog_url", "business_industries",
   "country_name", "crunchbase_url", "employee_estimate", "facebook_profile_url",
   "full_address", "linkedin_id", "linkedin_profile_url", "main_domain",
   "main_phone_cleaned_number", "main_phone_number", "main_phone_source",
   "search_keywords", "spoken_languages", "state_name", "stock_exchange",
   "stock_symbol", "store_count", "twitter_profile_url", "website_url",
   "year_founded", "zip_code", "created_at", "updated_at"]

/-- The allowed_update_columns list of update_company, verbatim: the same
columns without id and created_at, with updated_at included. -/
def allowedUpdateColumns : List String :=
  ["name", "logo_url", "city", "foundation_date", "domain", "employee_range",
   "categories", "industry", "address", "contact_email", "revenue", "active",
   "catchall_email_domain", "cleaned_phone_number", "additional_industries",
   "alexa_rank", "angel_list_profile_url", "blog_url", "business_industries",
   "country_name", "crunchbase_url", "employee_estimate", "facebook_profile_url",
   "full_address", "linkedin_id", "linkedin_profile_url", "main_domain",
   "main_phone_cleaned_number", "main_phone_number", "main_phone_source",
   "search_keywords", "spoken_languages", "state_name", "stock_exchange",
   "stock_symbol", "store_count", "twitter_profile_url", "website_url",
   "year_founded", "zip_code", "updated_at"]

/-- The allow-list filter used by both handlers: the dict comprehension
keeping entries whose key is in the fixed column list and whose value is
not None. -/
def allowedFilter (cols : List String) (d : Dict) : Dict :=
  d.filter (fun kv => decide (kv.1 ∈ cols) && !(valueIsNull kv.2))

/-- Model of the exceptions that can escape a handler body:
Exc.http models fastapi.HTTPException(status_code, detail);
Exc.nameError models a Python NameError for an undefined identifier. -/
inductive Exc where
  | http : Nat → String → Exc
  | nameError : String → Exc

/-- get_db_cursor as a wrapper around a handler body.  The body receives
the transaction state (initially the committed db) and either returns a
result with the new transaction state or raises.  On normal exit the
generator runs conn.commit() when commit=True, so the new state is
committed; without commit the connection is closed and the transaction
discarded.  When the body raises anything, the except Exception clause of
get_db_cursor captures it and raises a fresh
HTTPException(500, Database operation failed.) - this swallows even the
HTTPException(404) values the handlers raise deliberately - and the
commit is skipped, so the transaction rolls back. -/
def withDbCursor {α : Type} (commit : Bool) (db : DB) (body : DB → Except Exc (α × DB)) :
    Except Exc α × DB :=
  match body db with
  | Except.ok (a, db2) => (Except.ok a, if commit then db2 else db)
  | Except.error _ => (Except.error (Exc.http 500 ("Database operation failed.")), db)

/-- SELECT ... FROM companies WHERE id = %s with fetchone: the first row
whose id column is the requested identifier. -/
def findCompanyRow (cid : Nat) (db : DB) : Option Dict :=
  db.find? (fun r => decide (dictLookup r ("id")= some (Value.vUuid cid)))

/-- The column projection of the SELECT in get_company. -/
def getProjection : List String :=
  ["id", "name", "industry", "address", "logo_url", "revenue",
   "employee_estimate", "created_at", "updated_at"]

/-- A SELECT of the given columns from a row: every selected column is
present in the result, columns the stored row does not carry are NULL. -/
def projectRow (cols : List String) (r : Dict) : Dict :=
  cols.map (fun c => (c, (dictLookup r c).getD Value.vNull))

/-- get_company.  Inside the cursor block: fetch the row by id; if none,
raise HTTPException(404, Company not found); otherwise convert it with
row_to_camel_dict and return it (the response payload is modelled as that
camel dict; Company.model_validate on the success path only renames
fields through aliases and is not needed by any claim).  The surrounding
try/except of the handler re-raises HTTPExceptions unchanged.  Note that
the 404 is raised inside the with get_db_cursor() block, so withDbCursor
turns it into a 500. -/
def getCompany (cid : Nat) (db : DB) : Except Exc Dict × DB :=
  withDbCursor false db (fun txn =>
    match findCompanyRow cid txn with
    | none => Except.error (Exc.http 404 ("Company not found"))
    | some r => Except.ok (rowToCamelDict (projectRow getProjection r), txn))

/-- The insert_data dict of create_company: internalize the dump of the
request, force-set id, created_at and updated_at, then apply the
allow-list / non-None filter. -/
def createInsertDataOf (dump : Dict) (newId : Nat) (now : Nat) : Dict :=
  let snake := camelToSnakeDict dump
  let s1 := dictInsert snake ("id") (Value.vUuid newId)
  let s2 := dictInsert s1 ("created_at") (Value.vDt now)
  let s3 := dictInsert s2 ("updated_at") (Value.vDt now)
  allowedFilter allowedColumns s3

/-- insert_data after the three conditional re-adds of create_company
(if id / created_at / updated_at are missing after filtering they are
set again; in fact they are always present, so these are no-ops). -/
def createInsertDataFinal (dump : Dict) (newId : Nat) (now : Nat) : Dict :=
  let d0 := createInsertDataOf dump newId now
  let d1 := if ("id") ∈ dictKeys d0 then d0 else dictInsert d0 ("id") (Value.vUuid newId)
  let d2 := if ("created_at") ∈ dictKeys d1 then d1 else dictInsert d1 ("created_at") (Value.vDt now)
  if ("updated_at") ∈ dictKeys d2 then d2 else dictInsert d2 ("updated_at") (Value.vDt now)

/-- The column list interpolated into the dynamic INSERT statement. -/
def insertQueryColumns (dump : Dict) (newId : Nat) (now : Nat) : List String :=
  dictKeys (createInsertDataFinal dump newId now)

/-- The INSERT statement text built by create_company from the filtered
column set: the column names and one %s placeholder per column are
interpolated into the f-string. -/
def insertQuerySql (dump : Dict) (newId : Nat) (now : Nat) : String :=
  let cols := insertQueryColumns dump newId now
  String.append ("INSERT INTO companies (")
    (String.append (String.intercalate (", ") cols)
      (String.append (") VALUES (")
        (String.append (String.intercalate (", ") (cols.map (fun _ => ("%s"))))
          (") RETURNING id;"))))

/-- create_company, after FastAPI request validation.  dump is
request.model_dump(exclude_unset=True) as a camelCase dict, newId the
uuid4() value, now the datetime.now() value.  The name check raises a 400
before the cursor block (so it survives as a 400).  Inside the cursor
block the INSERT appends the filtered row to the transaction state, and
the response is produced by calling get_company(inserted_id) - a nested
call that opens a fresh connection and therefore reads the committed db,
which cannot yet contain the uncommitted row. -/
def createCompany (dump : Dict) (newId : Nat) (now : Nat) (db : DB) : Except Exc Dict × DB :=
  let insertData := createInsertDataOf dump newId now
  if ("name") ∉ dictKeys insertData then
    (Except.error (Exc.http 400 ("Company name is required.")), db)
  else
    withDbCursor true db (fun txn =>
      let txn2 := txn ++ [createInsertDataFinal dump newId now]
      match getCompany newId db with
      | (Except.ok resp, _) => Except.ok (resp, txn2)
      | (Except.error e, _) => Except.error e)

/-- The update_fields dict of update_company: internalize the dump of the
request, force-set updated_at to now, then apply the allow-list /
non-None filter with the update column list. -/
def updateFieldsOf (dump : Dict) (now : Nat) : Dict :=
  allowedFilter allowedUpdateColumns
    (dictInsert (camelToSnakeDict dump) ("updated_at") (Value.vDt now))

/-- The SET clause of the UPDATE statement applies col = %s for each
filtered column in order: on the matched row each listed column is
assigned its new value. -/
def applyUpdateFields (r : Dict) (fields : Dict) : Dict :=
  fields.foldl (fun acc kv => dictInsert acc kv.1 kv.2) r

/-- The column names interpolated into the SET clause of the dynamic
UPDATE statement: the keys of update_fields, in order. -/
def updateSetColumns (dump : Dict) (now : Nat) : List String :=
  dictKeys (updateFieldsOf dump now)

/-- The UPDATE statement text built by update_company: col = %s for each
filtered column, the WHERE on id and the RETURNING clause. -/
def updateQuerySql (dump : Dict) (now : Nat) : String :=
  String.append ("UPDATE companies SET ")
    (String.append
      (String.intercalate (", ")
        ((updateSetColumns dump now).map (fun c => String.append c (" = %s"))))
      (" WHERE id = %s RETURNING id;"))

/-- update_company, after FastAPI request validation.  An empty dump is
rejected with 400 before anything else; after force-setting updated_at
and filtering, a field set that is empty or contains only updated_at is
rejected with 400; both rejections happen before the cursor block and
touch no SQL.  Inside the cursor block the UPDATE mutates the matching
row of the transaction state; RETURNING id yields no row exactly when no
row matched, in which case HTTPException(404) is raised (and mangled to
500 by get_db_cursor).  On a match the response is produced by the nested
get_company call, which reads the committed db on a fresh connection (so
it returns the pre-update values), and the commit then publishes the
update. -/
def updateCompany (cid : Nat) (dump : Dict) (now : Nat) (db : DB) : Except Exc Dict × DB :=
  let snake := camelToSnakeDict dump
  if snake = [] then (Except.error (Exc.http 400 ("No update data provided.")), db)
  else
    let fields := updateFieldsOf dump now
    if fields = [] ∨ ∀ kv ∈ fields, kv.1 = ("updated_at") then
      (Except.error (Exc.http 400 ("No valid fields provided for update.")), db)
    else
      withDbCursor true db (fun txn =>
        match findCompanyRow cid txn with
        | none => Except.error (Exc.http 404 ("Company not found"))
        | some _ =>
          let txn2 := txn.map (fun r =>
            if dictLookup r ("id")= some (Value.vUuid cid) then applyUpdateFields r fields else r)
          match getCompany cid db with
          | (Except.ok resp, _) => Except.ok (resp, txn2)
          | (Except.error e, _) => Except.error e)

/-- delete_company.  Inside the cursor block: DELETE ... RETURNING id
yields no row exactly when no row had the requested id, in which case
HTTPException(404) is raised; otherwise the handler evaluates
Response(status_code=204), but Response is never imported by the module
(only APIRouter and HTTPException are imported from fastapi), so that
expression raises NameError.  Every path out of the body therefore
raises, so the DELETE is never committed; the mutation of the
transaction state is omitted from the model because it is always
discarded, and the RETURNING fetch is modelled by findCompanyRow on the
transaction state. -/
def deleteCompany (cid : Nat) (db : DB) : Except Exc Unit × DB :=
  withDbCursor true db (fun txn =>
    match findCompanyRow cid txn with
    | none => Except.error (Exc.http 404 ("Company not found"))
    | some _ => Except.error (Exc.nameError ("Response")))

/-- The six field names of CreateCompanyRequest and UpdateCompanyRequest. -/
def createRequestFields : List String :=
  ["name", "industry", "location", "logoUrl", "revenue", "employees"]

/-- A required str field of a Pydantic model: present and a string. -/
def isReqStr : Option Value → Bool
  | some (Value.vStr _) => true
  | _ => false

/-- An Optional[str] field: absent, a string, or None. -/
def isOptStr : Option Value → Bool
  | none => true
  | some (Value.vStr _) => true
  | some Value.vNull => true
  | _ => false

/-- An Optional[int] field: absent, an integer, or None. -/
def isOptInt : Option Value → Bool
  | none => true
  | some (Value.vInt _) => true
  | some Value.vNull => true
  | _ => false

/-- FastAPI/Pydantic validation of a POST body against
CreateCompanyRequest: name, industry and location are required str fields
(declared without defaults), logoUrl is Optional[str], revenue and
employees Optional[int]; unknown keys are ignored.  On success the
handler later takes model_dump(exclude_unset=True), i.e. the provided
known fields, modelled by the filter.  A failure is a
RequestValidationError, surfaced by FastAPI as HTTP 422, and the handler
is never invoked (numeric-string lax coercion is not modelled; no claim
depends on it). -/
def validateCreateRequest (body : Dict) : Except Exc Dict :=
  if isReqStr (dictLookup body ("name")) && isReqStr (dictLookup body ("industry"))
      && isReqStr (dictLookup body ("location")) && isOptStr (dictLookup body ("logoUrl"))
      && isOptInt (dictLookup body ("revenue")) && isOptInt (dictLookup body ("employees")) then
    Except.ok (body.filter (fun kv => decide (kv.1 ∈ createRequestFields)))
  else
    Except.error (Exc.http 422 ("request body does not validate against CreateCompanyRequest"))

/-- The HTTP status of an error outcome, if any. -/
def resultStatus {α : Type} : Except Exc α → Option Nat
  | Except.error (Exc.http s _) => some s
  | _ => none

/-- A value that is neither a uuid.UUID nor a datetime/date, i.e. one
that row_to_camel_dict passes through unchanged. -/
def plainValue : Value → Bool
  | Value.vUuid _ => false
  | Value.vDt _ => false
  | _ => true

theorem dictInsert_ne_nil (d : Dict) (k : String) (v : Value) : dictInsert d k v ≠ [] := by
  cases d with
  | nil => simp [dictInsert]
  | cons kv t => by_cases h : kv.1 = k <;> simp [dictInsert, h]

theorem dictLookup_dictInsert (d : Dict) (k q : String) (v : Value) :
    dictLookup (dictInsert d k v) q = if q = k then some v else dictLookup d q := by
  induction d with
  | nil =>
    by_cases h : q = k
    · simp [dictInsert, dictLookup, h]
    · have h2 : ¬ k = q := fun hh => h (Eq.symm hh)
      simp [dictInsert, dictLookup, h, h2]
  | cons kv t ih =>
    by_cases h1 : kv.1 = k
    · by_cases h2 : q = k
      · simp [dictInsert, dictLookup, h1, h2]
      · have h3 : ¬ k = q := fun hh => h2 (Eq.symm hh)
        have h4 : ¬ kv.1 = q := fun hh => h3 (h1 ▸ hh)
        simp [dictInsert, dictLookup, h1, h2, h3, h4]
    · by_cases h3 : kv.1 = q
      · have h2 : ¬ q = k := fun hh => h1 (h3.symm ▸ hh)
        simp [dictInsert, dictLookup, h1, h2, h3]
      · simp [dictInsert, dictLookup, h1, h3, ih]

theorem mem_dictInsert {kv2 : String × Value} (d : Dict) (k : String) (v : Value)
    (h : kv2 ∈ dictInsert d k v) : kv2 = (k, v) ∨ kv2 ∈ d := by
  induction d with
  | nil => simpa [dictInsert] using h
  | cons kv t ih =>
    by_cases h1 : kv.1 = k
    · simp only [dictInsert, if_pos h1, List.mem_cons] at h
      rcases h with h | h
      · exact Or.inl h
      · exact Or.inr (List.mem_cons_of_mem _ h)
    · simp only [dictInsert, if_neg h1, List.mem_cons] at h
      rcases h with h | h
      · exact Or.inr (by simp [h])
      · rcases ih h with h2 | h2
        · exact Or.inl h2
        · exact Or.inr (List.mem_cons_of_mem _ h2)

theorem self_mem_dictInsert (d : Dict) (k : String) (v : Value) : (k, v) ∈ dictInsert d k v := by
  induction d with
  | nil => simp [dictInsert]
  | cons kv t ih =>
    by_cases h1 : kv.1 = k
    · simp [dictInsert, h1]
    · simp only [dictInsert, if_neg h1, List.mem_cons]
      exact Or.inr ih

theorem mem_keys_dictInsert {q : String} (d : Dict) (k : String) (v : Value)
    (h : q ∈ dictKeys (dictInsert d k v)) : q = k ∨ q ∈ dictKeys d := by
  rcases List.mem_map.1 h with ⟨kv2, hmem, hq⟩
  rcases mem_dictInsert d k v hmem with h2 | h2
  · exact Or.inl (by rw [← hq, h2])
  · exact Or.inr (List.mem_map.2 ⟨kv2, h2, hq⟩)

theorem dictInsert_of_not_mem_keys (d : Dict) (k : String) (v : Value)
    (h : k ∉ dictKeys d) : dictInsert d k v = d ++ [(k, v)] := by
  induction d with
  | nil => simp [dictInsert]
  | cons kv t ih =>
    have h1 : ¬ kv.1 = k := by
      intro hh
      exact h (by simp [dictKeys, hh])
    have h2 : k ∉ dictKeys t := by
      intro hh
      exact h (by simp [dictKeys] at hh ⊢; exact Or.inr hh)
    simp [dictInsert, h1, ih h2]

theorem mem_foldl_dictInsert (g : String × Value → String × Value) :
    ∀ (m acc : Dict) (kv2 : String × Value),
      kv2 ∈ m.foldl (fun a kv => dictInsert a (g kv).1 (g kv).2) acc →
      kv2 ∈ acc ∨ ∃ kv ∈ m, kv2 = g kv := by
  intro m
  induction m with
  | nil => exact fun acc kv2 h => Or.inl h
  | cons hd t ih =>
    intro acc kv2 h
    rw [List.foldl_cons] at h
    rcases ih (dictInsert acc (g hd).1 (g hd).2) kv2 h with h2 | ⟨kv, hkv, hek⟩
    · rcases mem_dictInsert _ _ _ h2 with h3 | h3
      · exact Or.inr ⟨hd, List.mem_cons_self _ _, by simpa using h3⟩
      · exact Or.inl h3
    · exact Or.inr ⟨kv, List.mem_cons_of_mem _ hkv, hek⟩

theorem foldl_dictInsert_eq_append (g : String × Value → String × Value) :
    ∀ (m acc : Dict), (m.map (fun kv => (g kv).1)).Nodup →
      (∀ kv ∈ m, (g kv).1 ∉ dictKeys acc) →
      m.foldl (fun a kv => dictInsert a (g kv).1 (g kv).2) acc = acc ++ m.map g := by
  intro m
  induction m with
  | nil => intro acc _ _; simp
  | cons hd t ih =>
    intro acc hnodup hfresh
    rw [List.foldl_cons,
      dictInsert_of_not_mem_keys _ _ _ (hfresh hd (List.mem_cons_self _ _))]
    rw [List.map_cons] at hnodup
    have hnd := List.nodup_cons.1 hnodup
    have hfresh2 : ∀ kv ∈ t, (g kv).1 ∉ dictKeys (acc ++ [((g hd).1, (g hd).2)]) := by
      intro kv hkv hmem
      simp only [dictKeys, List.map_append, List.mem_append, List.map_cons, List.map_nil,
        List.mem_singleton] at hmem
      rcases hmem with hmem | hmem
      · exact hfresh kv (List.mem_cons_of_mem _ hkv) (List.mem_map.2 (by simpa [dictKeys] using List.mem_map.1 hmem))
      · exact hnd.1 (hmem ▸ List.mem_map.2 ⟨kv, hkv, rfl⟩)
    rw [ih (acc ++ [((g hd).1, (g hd).2)]) hnd.2 hfresh2]
    simp

theorem dictMapInsert_eq_map (g : String × Value → String × Value) (m : Dict)
    (h : (m.map (fun kv => (g kv).1)).Nodup) :
    dictMapInsert g m = m.map g := by
  have h2 := foldl_dictInsert_eq_append g m [] h (by intro kv _; simp [dictKeys])
  simpa [dictMapInsert] using h2

theorem foldl_dictInsert_ne_nil (g : String × Value → String × Value) :
    ∀ (m acc : Dict), acc ≠ [] →
      m.foldl (fun a kv => dictInsert a (g kv).1 (g kv).2) acc ≠ [] := by
  intro m
  induction m with
  | nil => exact fun acc h => h
  | cons hd t ih =>
    intro acc _
    rw [List.foldl_cons]
    exact ih _ (dictInsert_ne_nil _ _ _)

theorem camelToSnakeDict_ne_nil (d : Dict) (h : d ≠ []) : camelToSnakeDict d ≠ [] := by
  cases d with
  | nil => exact absurd rfl h
  | cons hd t =>
    show List.foldl _ _ _ ≠ []
    rw [List.foldl_cons]
    exact foldl_dictInsert_ne_nil snakePair t _ (dictInsert_ne_nil _ _ _)

theorem valueIsNull_false_ne (v : Value) (h : valueIsNull v = false) : v ≠ Value.vNull := by
  cases v <;> simp [valueIsNull] at h ⊢

theorem externalizeValue_of_plain (v : Value) (h : plainValue v = true) :
    externalizeValue v = v := by
  cases v <;> simp [plainValue, externalizeValue] at h ⊢

theorem mem_allowedFilter {cols : List String} {d : Dict} {kv : String × Value}
    (h : kv ∈ allowedFilter cols d) : kv.1 ∈ cols ∧ kv.2 ≠ Value.vNull := by
  have h2 := List.mem_filter.1 h
  have h3 := h2.2
  simp only [Bool.and_eq_true, decide_eq_true_eq, Bool.not_eq_true'] at h3
  exact ⟨h3.1, valueIsNull_false_ne _ h3.2⟩

theorem mem_updateFieldsOf {dump : Dict} {now : Nat} {kv : String × Value}
    (h : kv ∈ updateFieldsOf dump now) : kv.1 ∈ allowedUpdateColumns ∧ kv.2 ≠ Value.vNull :=
  mem_allowedFilter h

theorem mem_ite_dictInsert {p : Prop} [Decidable p] {d : Dict} {k : String} {v : Value}
    {kv : String × Value} (h : kv ∈ (if p then d else dictInsert d k v)) :
    kv = (k, v) ∨ kv ∈ d := by
  split at h
  · exact Or.inr h
  · exact mem_dictInsert _ _ _ h

theorem mem_createInsertDataFinal {dump : Dict} {newId now : Nat} {kv : String × Value}
    (h : kv ∈ createInsertDataFinal dump newId now) :
    kv.1 ∈ allowedColumns ∧ kv.2 ≠ Value.vNull := by
  rcases mem_ite_dictInsert h with h2 | h2
  · exact ⟨by simp [h2]; decide, by simp [h2]⟩
  rcases mem_ite_dictInsert h2 with h3 | h3
  · exact ⟨by simp [h3]; decide, by simp [h3]⟩
  rcases mem_ite_dictInsert h3 with h4 | h4
  · exact ⟨by simp [h4]; decide, by simp [h4]⟩
  · exact mem_allowedFilter h4

theorem dictLookup_applyUpdateFields_of_not_key (q : String) :
    ∀ (fields r : Dict), (∀ kv ∈ fields, kv.1 ≠ q) →
      dictLookup (applyUpdateFields r fields) q = dictLookup r q := by
  intro fields
  induction fields with
  | nil => intro r _; rfl
  | cons hd t ih =>
    intro r hne
    have hfold : applyUpdateFields r (hd :: t) = applyUpdateFields (dictInsert r hd.1 hd.2) t := by
      simp [applyUpdateFields]
    rw [hfold, ih _ (fun kv hkv => hne kv (List.mem_cons_of_mem _ hkv)),
      dictLookup_dictInsert]
    have h1 : ¬ q = hd.1 := fun hh => hne hd (List.mem_cons_self _ _) (Eq.symm hh)
    simp [h1]

theorem dictLookup_applyUpdateFields_cases (q : String) :
    ∀ (fields r : Dict),
      dictLookup (applyUpdateFields r fields) q = dictLookup r q ∨
      ∃ kv ∈ fields, dictLookup (applyUpdateFields r fields) q = some kv.2 := by
  intro fields
  induction fields with
  | nil => intro r; exact Or.inl rfl
  | cons hd t ih =>
    intro r
    have hfold : applyUpdateFields r (hd :: t) = applyUpdateFields (dictInsert r hd.1 hd.2) t := by
      simp [applyUpdateFields]
    rcases ih (dictInsert r hd.1 hd.2) with h | ⟨kv, hkv, hl⟩
    · rw [hfold, h, dictLookup_dictInsert]
      by_cases h2 : q = hd.1
      · exact Or.inr ⟨hd, List.mem_cons_self _ _, by simp [h2]⟩
      · exact Or.inl (by simp [h2])
    · exact Or.inr ⟨kv, List.mem_cons_of_mem _ hkv, hfold ▸ hl⟩

theorem allowedColumns_camel_nodup : ((allowedColumns.map snakeToCamel)).Nodup := by decide

theorem allowedColumns_roundtrip :
    ∀ k ∈ allowedColumns, camelToSnakeKey (snakeToCamel k) = k := by decide

theorem allowedColumns_camel_not_special :
    ∀ k ∈ allowedColumns, snakeToCamel k ≠ ("location") ∧ snakeToCamel k ≠ ("employees") := by
  decide

theorem camelKeys_nodup_of_allowed (m : Dict)
    (hcols : ∀ kv ∈ m, kv.1 ∈ allowedColumns) (hnodup : (dictKeys m).Nodup) :
    (m.map (fun kv => (camelPair kv).1)).Nodup := by
  have hmm : m.map (fun kv => (camelPair kv).1) = (dictKeys m).map snakeToCamel := by
    simp [dictKeys, List.map_map, camelPair]
  rw [hmm]
  refine hnodup.map_on ?_
  intro x hx y hy hxy
  have hx2 : x ∈ allowedColumns := by
    rcases List.mem_map.1 hx with ⟨kv, hkv, he⟩
    exact he ▸ hcols kv hkv
  have hy2 : y ∈ allowedColumns := by
    rcases List.mem_map.1 hy with ⟨kv, hkv, he⟩
    exact he ▸ hcols kv hkv
  exact List.inj_on_of_nodup_map allowedColumns_camel_nodup hx2 hy2 hxy

/-- C1: the claim says a get, update or delete whose target identifier is
absent from the companies table yields HTTP 404.  In the code the
handlers do raise HTTPException(404, Company not found) - but they raise
it inside the with get_db_cursor() block, whose except Exception clause
captures every exception (HTTPException included) and raises a fresh
HTTPException(500, Database operation failed.).  Evaluated on a table
holding only the row with identifier 3, a get, a non-empty update and a
delete of the absent identifier 9 therefore all surface status 500, never
404, and leave the table unchanged. -/
theorem missing_id_requests_return_500_not_404 :
    resultStatus (getCompany 9 [[(("id"), Value.vUuid 3), (("name"), Value.vStr ("A"))]]).1
      = some 500 ∧
    resultStatus (updateCompany 9 [(("name"), Value.vStr ("B"))] 5
      [[(("id"), Value.vUuid 3), (("name"), Value.vStr ("A"))]]).1 = some 500 ∧
    resultStatus (deleteCompany 9 [[(("id"), Value.vUuid 3), (("name"), Value.vStr ("A"))]]).1
      = some 500 := by
  decide

/-- C2: the claim says deleting an existing identifier removes the row,
commits, and returns 204 with an empty body.  In the code the success
path evaluates Response(status_code=204), but Response is never imported
by the module, so a NameError is raised inside the cursor block; the
except Exception clause of get_db_cursor turns it into HTTP 500 and the
commit is skipped, rolling the DELETE back.  Evaluated on a table holding
the row with identifier 3, deleting identifier 3 returns status 500 and
the table still holds the row. -/
theorem delete_existing_row_fails_500_and_keeps_row :
    resultStatus (deleteCompany 3 [[(("id"), Value.vUuid 3), (("name"), Value.vStr ("A"))]]).1
      = some 500 ∧
    (deleteCompany 3 [[(("id"), Value.vUuid 3), (("name"), Value.vStr ("A"))]]).2
      = [[(("id"), Value.vUuid 3), (("name"), Value.vStr ("A"))]] := by
  decide

/-- C3: the claim speaks about successful create requests.  In the code no
create request can succeed: create_company calls get_company on the new
identifier inside its own uncommitted cursor block, and get_company opens
a fresh connection, which at read-committed isolation cannot see the
uncommitted INSERT; the resulting 404 is mangled to 500 by get_db_cursor,
the error aborts create_company before its commit, and the INSERT is
rolled back.  Evaluated on an empty table with a fully valid request
body, create returns status 500 and the table stays empty. -/
theorem create_returns_500_and_persists_nothing :
    resultStatus (createCompany
      [(("name"), Value.vStr ("Acme")), (("industry"), Value.vStr ("Tech")),
       (("location"), Value.vStr ("Berlin"))] 7 0 []).1 = some 500 ∧
    (createCompany
      [(("name"), Value.vStr ("Acme")), (("industry"), Value.vStr ("Tech")),
       (("location"), Value.vStr ("Berlin"))] 7 0 []).2 = ([] : DB) := by
  decide

/-- C4 counterexample: the claim says a create whose body contains only
the field name succeeds with 201.  CreateCompanyRequest declares industry
and location as required str fields alongside name, so the body
consisting only of name fails FastAPI request validation (HTTP 422) and
the handler is never invoked. -/
theorem create_name_only_fails_validation :
    resultStatus (validateCreateRequest [(("name"), Value.vStr ("Acme"))]) = some 422 := by
  decide

/-- C4 amended: a create request whose body lacks the field industry (in
particular the body containing only name) is rejected by request
validation against CreateCompanyRequest, which requires name, industry
and location; it is surfaced as a 422 validation error, the handler never
runs and no record is created. -/
theorem create_missing_industry_rejected
    (body : Dict) (h : dictLookup body ("industry") = none) :
    resultStatus (validateCreateRequest body) = some 422 := by
  simp [validateCreateRequest, h, isReqStr, resultStatus]

theorem create_missing_industry_rejected_witness :
    resultStatus (validateCreateRequest
      [(("name"), Value.vStr ("A")), (("location"), Value.vStr ("B"))]) = some 422 :=
  create_missing_industry_rejected _ (by decide)

/-- C5 counterexample: the claim says row_to_camel_dict applied to a
mapping containing the key address returns a mapping with the key
location (same value) and no key address.  In the code snake_to_camel
leaves address unchanged and row_to_camel_dict performs no irregular
renames (the address-to-location rename is done later by the alias of the
Pydantic Company model), so on the concrete input the output still binds
address and has no key location - the opposite of the claim. -/
theorem rowToCamelDict_address_stays_address :
    ("location") ∉ dictKeys (rowToCamelDict [(("address"), Value.vStr ("Berlin"))]) ∧
    dictLookup (rowToCamelDict [(("address"), Value.vStr ("Berlin"))]) ("address")
      = some (Value.vStr ("Berlin")) := by
  decide

/-- C5 amended: for every internal-convention mapping with distinct keys
drawn from the fixed column set that contains the key address with a
plain (non-uuid, non-datetime) value, row_to_camel_dict returns a mapping
that still contains the key address bound to the same value and contains
no key location; the address-to-location rename happens outside
row_to_camel_dict, in the response-model aliasing. -/
theorem rowToCamelDict_preserves_address_key
    (m : Dict) (v : Value) (hcols : ∀ kv ∈ m, kv.1 ∈ allowedColumns)
    (hnodup : (dictKeys m).Nodup) (hmem : ((("address"), v)) ∈ m)
    (hplain : plainValue v = true) :
    ((("address"), v)) ∈ rowToCamelDict m ∧
    ("location") ∉ dictKeys (rowToCamelDict m) := by
  have h1 := camelKeys_nodup_of_allowed m hcols hnodup
  have hmap : rowToCamelDict m = m.map camelPair := dictMapInsert_eq_map camelPair m h1
  constructor
  · rw [hmap]
    refine List.mem_map.2 ⟨((("address"), v)), hmem, ?_⟩
    simp [camelPair, externalizeValue_of_plain v hplain]
    decide
  · rw [hmap]
    intro hloc
    rcases List.mem_map.1 hloc with ⟨kv2, hkv2, he⟩
    rcases List.mem_map.1 hkv2 with ⟨kv, hkv, he2⟩
    have hcol := hcols kv hkv
    have := (allowedColumns_camel_not_special kv.1 hcol).1
    exact this (by rw [← he, ← he2]; rfl)

theorem rowToCamelDict_preserves_address_key_witness :
    ((("address"), Value.vStr ("Berlin")))
      ∈ rowToCamelDict [(("id"), Value.vStr ("x")), (("address"), Value.vStr ("Berlin"))] ∧
    ("location") ∉ dictKeys
      (rowToCamelDict [(("id"), Value.vStr ("x")), (("address"), Value.vStr ("Berlin"))]) :=
  rowToCamelDict_preserves_address_key _ _ (by decide) (by decide) (by decide) (by decide)

/-- C6: for every well-formed internal-convention mapping - distinct keys
drawn from the fixed column set, values not subject to the lossy
uuid/datetime string reformatting - internalize after externalize is the
identity: camel_to_snake_dict (row_to_camel_dict m) = m.  The generic
case conversions invert each other on every column of the fixed set and
no camel-cased column collides with the irregular keys location or
employees. -/
theorem internalize_externalize_roundtrip
    (m : Dict) (hcols : ∀ kv ∈ m, kv.1 ∈ allowedColumns)
    (hnodup : (dictKeys m).Nodup)
    (hplain : ∀ kv ∈ m, plainValue kv.2 = true) :
    camelToSnakeDict (rowToCamelDict m) = m := by
  have h1 := camelKeys_nodup_of_allowed m hcols hnodup
  have hmap : rowToCamelDict m = m.map camelPair := dictMapInsert_eq_map camelPair m h1
  have hkeys : (m.map camelPair).map (fun kv => (snakePair kv).1) = dictKeys m := by
    rw [List.map_map]
    refine List.map_congr_left ?_
    intro kv hkv
    show camelToSnakeKey (snakeToCamel kv.1) = kv.1
    exact allowedColumns_roundtrip kv.1 (hcols kv hkv)
  have h2 : ((m.map camelPair).map (fun kv => (snakePair kv).1)).Nodup := by
    rw [hkeys]; exact hnodup
  rw [hmap]
  show dictMapInsert snakePair (List.map camelPair m) = m
  rw [dictMapInsert_eq_map snakePair _ h2, List.map_map]
  have hid : ∀ kv ∈ m, snakePair (camelPair kv) = kv := by
    intro kv hkv
    have hkey : camelToSnakeKey (snakeToCamel kv.1) = kv.1 :=
      allowedColumns_roundtrip kv.1 (hcols kv hkv)
    have hval : externalizeValue kv.2 = kv.2 := externalizeValue_of_plain kv.2 (hplain kv hkv)
    calc snakePair (camelPair kv) = (camelToSnakeKey (snakeToCamel kv.1), externalizeValue kv.2) := rfl
      _ = (kv.1, kv.2) := by rw [hkey, hval]
      _ = kv := rfl
  simp only [Function.comp_def]
  rw [List.map_congr_left hid]
  exact List.map_id m

theorem internalize_externalize_roundtrip_witness :
    camelToSnakeDict (rowToCamelDict
      [(("name"), Value.vStr ("Acme")), (("employee_estimate"), Value.vInt 5),
       (("address"), Value.vStr ("Berlin"))])
      = [(("name"), Value.vStr ("Acme")), (("employee_estimate"), Value.vInt 5),
         (("address"), Value.vStr ("Berlin"))] :=
  internalize_externalize_roundtrip _ (by decide) (by decide) (by decide)

/-- C7: for every input dict, adversarial keys included, the allow-list
filter of create (after the force-set of id and the timestamps and the
conditional re-adds) and the allow-list filter of update emit only
entries whose key belongs to the fixed allow-list of the operation and
whose value is not None; consequently the column names interpolated into
the dynamically built INSERT and UPDATE SQL texts (insertQueryColumns and
updateSetColumns, which are exactly the interpolated lists) all come from
those static lists and never from caller-supplied strings. -/
theorem allow_list_filter_sound :
    (∀ (dump : Dict) (newId now : Nat) (kv : String × Value),
        kv ∈ createInsertDataFinal dump newId now →
        kv.1 ∈ allowedColumns ∧ kv.2 ≠ Value.vNull) ∧
    (∀ (dump : Dict) (now : Nat) (kv : String × Value),
        kv ∈ updateFieldsOf dump now →
        kv.1 ∈ allowedUpdateColumns ∧ kv.2 ≠ Value.vNull) ∧
    (∀ (dump : Dict) (newId now : Nat) (c : String),
        c ∈ insertQueryColumns dump newId now → c ∈ allowedColumns) ∧
    (∀ (dump : Dict) (now : Nat) (c : String),
        c ∈ updateSetColumns dump now → c ∈ allowedUpdateColumns) := by
  refine ⟨fun _ _ _ _ h => mem_createInsertDataFinal h,
    fun _ _ _ h => mem_updateFieldsOf h, ?_, ?_⟩
  · intro dump newId now c hc
    rcases List.mem_map.1 hc with ⟨kv, hkv, he⟩
    exact he ▸ (mem_createInsertDataFinal hkv).1
  · intro dump now c hc
    rcases List.mem_map.1 hc with ⟨kv, hkv, he⟩
    exact he ▸ (mem_updateFieldsOf hkv).1

theorem allow_list_filter_sound_witness :
    ((("name"), Value.vStr ("Acme"))).1 ∈ allowedColumns ∧
      ((("name"), Value.vStr ("Acme"))).2 ≠ Value.vNull :=
  allow_list_filter_sound.1
    [(("evil; DROP TABLE companies --"), Value.vStr ("x")), (("name"), Value.vStr ("Acme"))]
    7 0 ((("name"), Value.vStr ("Acme"))) (by decide)

/-- C8: an update request that, after internalization and dropping of
null values, contains no substantive field besides the forced updated_at
timestamp (the completely empty body included) is rejected with a 400
client error raised before the cursor block is ever entered, and the
table is unchanged - no SQL write is executed. -/
theorem substantively_empty_update_rejected
    (cid : Nat) (dump : Dict) (now : Nat) (db : DB)
    (h : ∀ kv ∈ updateFieldsOf dump now, kv.1 = ("updated_at")) :
    ∃ msg, updateCompany cid dump now db = (Except.error (Exc.http 400 msg), db) := by
  by_cases hempty : camelToSnakeDict dump = []
  · refine ⟨("No update data provided."), ?_⟩
    simp only [updateCompany]
    rw [if_pos hempty]
  · refine ⟨("No valid fields provided for update."), ?_⟩
    have hcond : updateFieldsOf dump now = [] ∨
        ∀ kv ∈ updateFieldsOf dump now, kv.1 = ("updated_at") := Or.inr h
    simp only [updateCompany]
    rw [if_neg hempty, if_pos hcond]

theorem substantively_empty_update_rejected_witness :
    ∃ msg, updateCompany 1 [(("name"), Value.vNull)] 0 []
      = (Except.error (Exc.http 400 msg), []) :=
  substantively_empty_update_rejected 1 [(("name"), Value.vNull)] 0 [] (by decide)

/-- C9: for every update request the columns id and created_at never
appear in the SET clause of the dynamic UPDATE statement (they are not in
allowed_update_columns), while updated_at is always present in it (it is
force-set to the current time and survives the filter); consequently
applying the SET clause to any row leaves the row's id and created_at
values unchanged. -/
theorem update_set_clause_excludes_id_and_created_at :
    ∀ (dump : Dict) (now : Nat),
      (("id") ∉ updateSetColumns dump now ∧
       ("created_at") ∉ updateSetColumns dump now ∧
       ("updated_at") ∈ updateSetColumns dump now) ∧
      ∀ r : Dict,
        dictLookup (applyUpdateFields r (updateFieldsOf dump now)) ("id")
          = dictLookup r ("id") ∧
        dictLookup (applyUpdateFields r (updateFieldsOf dump now)) ("created_at")
          = dictLookup r ("created_at") := by
  intro dump now
  have hkeys : ∀ q ∈ updateSetColumns dump now, q ∈ allowedUpdateColumns := by
    intro q hq
    rcases List.mem_map.1 hq with ⟨kv, hkv, he⟩
    exact he ▸ (mem_updateFieldsOf hkv).1
  have hid : ("id") ∉ updateSetColumns dump now := by
    intro hmem
    exact absurd (hkeys _ hmem) (by decide)
  have hcr : ("created_at") ∉ updateSetColumns dump now := by
    intro hmem
    exact absurd (hkeys _ hmem) (by decide)
  have hupd : ("updated_at") ∈ updateSetColumns dump now := by
    have hmem : ((("updated_at"), Value.vDt now))
        ∈ dictInsert (camelToSnakeDict dump) ("updated_at") (Value.vDt now) :=
      self_mem_dictInsert _ _ _
    have hf : ((("updated_at"), Value.vDt now)) ∈ updateFieldsOf dump now := by
      show ((("updated_at"), Value.vDt now)) ∈ List.filter _ _
      refine List.mem_filter.2 ⟨hmem, ?_⟩
      show (decide (("updated_at") ∈ allowedUpdateColumns) && !(valueIsNull (Value.vDt now))) = true
      rw [show valueIsNull (Value.vDt now) = false from rfl]
      decide
    exact List.mem_map.2 ⟨_, hf, rfl⟩
  refine ⟨⟨hid, hcr, hupd⟩, ?_⟩
  intro r
  constructor
  · refine dictLookup_applyUpdateFields_of_not_key _ _ _ ?_
    intro kv hkv he
    exact hid (he ▸ List.mem_map.2 ⟨kv, hkv, rfl⟩)
  · refine dictLookup_applyUpdateFields_of_not_key _ _ _ ?_
    intro kv hkv he
    exact hcr (he ▸ List.mem_map.2 ⟨kv, hkv, rfl⟩)

/-- C10: in both create and update every entry whose value is None is
dropped by the filter rather than written as a database NULL - no entry
of the written field set carries a None value - and consequently an
update can never clear an optional column that already holds a non-null
value: after applying the SET clause the column still holds some non-null
value (its old one, or a non-null replacement). -/
theorem null_values_dropped_never_cleared :
    (∀ (dump : Dict) (newId now : Nat) (kv : String × Value),
        kv ∈ createInsertDataFinal dump newId now → kv.2 ≠ Value.vNull) ∧
    (∀ (dump : Dict) (now : Nat) (kv : String × Value),
        kv ∈ updateFieldsOf dump now → kv.2 ≠ Value.vNull) ∧
    (∀ (dump : Dict) (now : Nat) (r : Dict) (k : String) (v : Value),
        dictLookup r k = some v → v ≠ Value.vNull →
        ∃ w, dictLookup (applyUpdateFields r (updateFieldsOf dump now)) k = some w ∧
          w ≠ Value.vNull) := by
  refine ⟨fun _ _ _ _ h => (mem_createInsertDataFinal h).2,
    fun _ _ _ h => (mem_updateFieldsOf h).2, ?_⟩
  intro dump now r k v hl hv
  rcases dictLookup_applyUpdateFields_cases k (updateFieldsOf dump now) r with h | ⟨kv, hkv, hq⟩
  · exact ⟨v, by rw [h, hl], hv⟩
  · exact ⟨kv.2, hq, (mem_updateFieldsOf hkv).2⟩

theorem null_values_dropped_never_cleared_witness :
    ∃ w, dictLookup
        (applyUpdateFields [(("industry"), Value.vStr ("Tech"))] (updateFieldsOf [] 0))
        ("industry") = some w ∧ w ≠ Value.vNull :=
  null_values_dropped_never_cleared.2.2 [] 0 [(("industry"), Value.vStr ("Tech"))]
    ("industry") (Value.vStr ("Tech")) (by decide) (by decide)
